import Mathlib

/-
Verification of the USN treasury balancer (`src/treasury/balance_treasury.rs`).

The decision engine `make_treasury_decision` is a pure function over `f64`
data; it is embedded here over `ℚ` (exact arithmetic in place of IEEE-754
doubles, the one systematic modelling choice).  The orchestration code
(`balance_treasury`, the Sell promise chain ending in
`finish_withdraw_with_burn`) is embedded as explicit state passing over the
outcomes of the external calls, following the NEAR promise semantics the
contract relies on: a `.then`-scheduled call runs after its predecessor
settles whether or not the predecessor succeeded, a method with a
`#[callback]` argument panics (is not reachable) when the feeding promise
failed, and `is_promise_success()` reports the status of the one promise
the current callback was scheduled on.
-/

namespace Usn

/-- `TreasuryDecision` from the source: the action decided for one
balancing attempt, amounts in USDT. -/
inductive TreasuryDecision where
  | Buy : ℚ → TreasuryDecision
  | Sell : ℚ → TreasuryDecision
  | DoNothing : TreasuryDecision
  deriving DecidableEq, Repr

/-- `SWAP_SLIPPAGE`: 50% slippage tolerance constant. -/
def SWAP_SLIPPAGE : ℚ := 1 / 2

/-- `NEAR_DECIMALS`: decimal precision of (wrapped) NEAR. -/
def NEAR_DECIMALS : ℕ := 24

/-- Constant `N_DN = 0.25` of `make_treasury_decision`. -/
def N_DN : ℚ := 1 / 4

/-- Constant `U_UP = 1.1`. -/
def U_UP : ℚ := 11 / 10

/-- Constant `U_DN = 1.0`. -/
def U_DN : ℚ := 1

/-- Constant `P_DN = 0.6`. -/
def P_DN : ℚ := 3 / 5

/-- Constant `P_UP = 0.7`. -/
def P_UP : ℚ := 7 / 10

/-- Constant `T_BUY_MIN = 1000`. -/
def T_BUY_MIN : ℚ := 1000

/-- Constant `T_SELL_MIN = 1000`. -/
def T_SELL_MIN : ℚ := 1000

/-- Constant `T_BUY_STEP = 3_000_000`. -/
def T_BUY_STEP : ℚ := 3000000

/-- Constant `T_SELL_STEP = 3_000_000`. -/
def T_SELL_STEP : ℚ := 3000000

/-- Constant `T_0 = 0` (the fit's time origin). -/
def T_0 : ℚ := 0

/-- Constant `M = 4` (the vertex-distance exponent). -/
def M : ℕ := 4

/-- Dot product of two rows, for the matrix products of the OLS fit. -/
def dot (v w : List ℚ) : ℚ := (List.zipWith (· * ·) v w).sum

/-- Transpose of a rectangular row-major matrix (`Matrix::transpose`). -/
def mat_transpose (m : List (List ℚ)) : List (List ℚ) :=
  (List.range (m.headD []).length).map fun j => m.map fun row => row.getD j 0

/-- Matrix product on row-major rational matrices (`easy_ml`'s `*`). -/
def mat_mul (A B : List (List ℚ)) : List (List ℚ) :=
  A.map fun row => (mat_transpose B).map fun col => dot row col

/-- Entry `(i, j)` of a row-major matrix (`Matrix::get`); out-of-range
reads default to `0`, which no in-contract use reaches. -/
def mat_get (m : List (List ℚ)) (i j : ℕ) : ℚ := (m.getD i []).getD j 0

/-- Determinant of a 3×3 matrix, by cofactor expansion along the first row. -/
def det3 (m : List (List ℚ)) : ℚ :=
  let a := mat_get m 0 0
  let b := mat_get m 0 1
  let c := mat_get m 0 2
  let d := mat_get m 1 0
  let e := mat_get m 1 1
  let f := mat_get m 1 2
  let g := mat_get m 2 0
  let h := mat_get m 2 1
  let k := mat_get m 2 2
  a * (e * k - f * h) - b * (d * k - f * g) + c * (d * h - e * g)

/-- Inverse of a 3×3 matrix (`Matrix::inverse`): `none` when the
determinant vanishes (the source's `inverse()` returning `None`, whose
`unwrap()` panics), otherwise the adjugate divided by the determinant. -/
def inverse3 (m : List (List ℚ)) : Option (List (List ℚ)) :=
  let a := mat_get m 0 0
  let b := mat_get m 0 1
  let c := mat_get m 0 2
  let d := mat_get m 1 0
  let e := mat_get m 1 1
  let f := mat_get m 1 2
  let g := mat_get m 2 0
  let h := mat_get m 2 1
  let k := mat_get m 2 2
  let det := det3 m
  if det = 0 then none
  else some
    [[(e * k - f * h) / det, (c * h - b * k) / det, (b * f - c * e) / det],
     [(f * g - d * k) / det, (a * k - c * g) / det, (c * d - a * f) / det],
     [(d * h - e * g) / det, (b * g - a * h) / det, (a * e - b * d) / det]]

/-- The three-point moving-average smoothing loop (`for k in 1..7`):
six smoothed values, each the mean of three consecutive samples.  The
callers only reach it with lists of length 8. -/
def smooth3 (v : List ℚ) : List ℚ :=
  (List.range 6).map fun j => (v.getD j 0 + v.getD (j + 1) 0 + v.getD (j + 2) 0) / 3

/-- The OLS fit of `y = c + b·x + a·x²` to the smoothed points: the basis
matrix has columns `1, x, x²` and `w = (Bᵀ B)⁻¹ (Bᵀ y)`, a 3×1 column
`[c; b; a]`; `none` when `Bᵀ B` is singular (the source panics there). -/
def fit_w (x y : List ℚ) : Option (List (List ℚ)) :=
  let basis := x.map fun xi => [1, xi, xi * xi]
  let ycol := y.map fun yi => [yi]
  let btb := mat_mul (mat_transpose basis) basis
  let bty := mat_mul (mat_transpose basis) ycol
  (inverse3 btb).map fun inv => mat_mul inv bty

/-- `er_mean`: mean of the raw exchange-rate series. -/
def er_mean (rates : List ℚ) : ℚ := rates.sum / (rates.length : ℚ)

/-- `s_tot`: sum of squared deviations of the raw rates from their mean. -/
def s_tot (rates : List ℚ) : ℚ := (rates.map fun er => (er - er_mean rates) ^ 2).sum

/-- `s_res`: sum of squared residuals of the raw `(time, rate)` pairs
against the fitted quadratic evaluated at the raw times (the source's
`for n in 0..exchange_rates.len()` loop, with `exchange_rates` and
`time_points` of equal length). -/
def s_res (rates times : List ℚ) (a b c : ℚ) : ℚ :=
  (List.zipWith (fun er t => (er - (t ^ 2 * a + t * b + c)) ^ 2) rates times).sum

/-- `r_squared = 1 − s_res / s_tot`, exactly as the source computes it,
over the raw series. -/
def r_squared (rates times : List ℚ) (a b c : ℚ) : ℚ :=
  1 - s_res rates times a b c / s_tot rates

/-- `f64::signum` restricted to the values exact arithmetic produces:
`-1` on negatives, `1` on positives and on (positive) zero. -/
def fsignum (x : ℚ) : ℚ := if x < 0 then -1 else 1

/-- The confidence-weighted curvature coefficient
`C = signum(a) · R² / ((T_0 + b / (2a))^M + 1)`. -/
def c_coef (a b r2 : ℚ) : ℚ := fsignum a * r2 / ((T_0 + b / (2 * a)) ^ M + 1)

/-- `exchange_rates.last().unwrap()`; the callers only reach it with a
nonempty list. -/
def last_rate (rates : List ℚ) : ℚ := rates.getLast?.getD 0

/-- The Sell threshold gate: `Sell r_sell` when `r_sell ≥ T_SELL_MIN`,
`DoNothing` otherwise. -/
def sell_gate (r_sell : ℚ) : TreasuryDecision :=
  if T_SELL_MIN ≤ r_sell then .Sell r_sell else .DoNothing

/-- The Buy threshold gate: `Buy r_buy` when `r_buy ≥ T_BUY_MIN`,
`DoNothing` otherwise. -/
def buy_gate (r_buy : ℚ) : TreasuryDecision :=
  if T_BUY_MIN ≤ r_buy then .Buy r_buy else .DoNothing

/-- The decision rules of `make_treasury_decision`, given the latest rate
`n_er`, the coefficient `c`, and the reserves `n` (NEAR), `q` (circulating
USN), `u` (USDT), with the optional random cap `limit`. -/
def treasury_rules (n_er c n q u : ℚ) (limit : Option ℚ) : TreasuryDecision :=
  if 0 ≤ N_DN * q - n_er * n then
    sell_gate (min (min (min (N_DN * q - n_er * n) T_SELL_STEP) u) (limit.getD T_SELL_STEP))
  else if N_DN * q - n_er * n < 0 ∧ 0 < c then
    sell_gate (min (min (min
      (max (c * (u - min (P_UP * (u + n_er * n)) (U_UP * q))) 0) T_SELL_STEP) u)
      (limit.getD T_SELL_STEP))
  else
    buy_gate (min (min (min
      (c * min (u - min (P_DN * (u + n_er * n)) (U_DN * q)) 0) T_BUY_STEP) (n_er * n))
      (limit.getD T_BUY_STEP))

/-- The tail of `make_treasury_decision` once the OLS fit `w` is
available: extract `a`, `b`, `c`, compute `R²` over the raw series and the
coefficient `C`, and apply the decision rules. -/
def decision_from_fit (rates times : List ℚ) (n q u : ℚ) (limit : Option ℚ)
    (w : List (List ℚ)) : TreasuryDecision :=
  let a := mat_get w 2 0
  let b := mat_get w 1 0
  let c0 := mat_get w 0 0
  treasury_rules (last_rate rates) (c_coef a b (r_squared rates times a b c0)) n q u limit

/-- `make_treasury_decision`: smooth the 8-sample series, fit the
quadratic to the 6 smoothed points, and decide.  `none` models the
panics: series of the wrong length (the cache always hands over 8, and
the `debug_assert`s insist on it) and a singular normal matrix. -/
def make_treasury_decision (exchange_rates time_points : List ℚ)
    (near usn usdt : ℚ) (limit : Option ℚ) : Option TreasuryDecision :=
  if exchange_rates.length = 8 ∧ time_points.length = 8 then
    (fit_w (smooth3 time_points) (smooth3 exchange_rates)).map
      (decision_from_fit exchange_rates time_points near usn usdt limit)
  else none

/-- The spec's goodness-of-fit statistic, taken from its words: `SStot` is
the sum of squared deviations of each of the 8 raw rates from their mean. -/
def spec_ss_tot (rates : List ℚ) : ℚ :=
  (rates.map fun v => (v - rates.sum / 8) ^ 2).sum

/-- The spec's `SSres`: the sum of squared residuals of each raw
`(time, rate)` pair against the quadratic `y = a·x² + b·x + c` evaluated
at the raw times. -/
def spec_ss_res (rates times : List ℚ) (a b c : ℚ) : ℚ :=
  (List.zipWith (fun v t => (v - (a * t ^ 2 + b * t + c)) ^ 2) rates times).sum

/-- The spec's `R² = 1 − SSres / SStot`. -/
def spec_r_squared (rates times : List ℚ) (a b c : ℚ) : ℚ :=
  1 - spec_ss_res rates times a b c / spec_ss_tot rates

/-- `min_amount` of `sell`: the swap's `min_amount_out`, computed by the
source as `((amount * SWAP_SLIPPAGE / exchange_rate) * 10^USN_DECIMALS) as
u128`.  The constant `USN_DECIMALS` is declared in the `ft` module, which
is not among the sources under verification, so it is a parameter here;
the truncating `as u128` cast is the floor on the non-negative values the
path produces. -/
def sell_min_amount_out (usn_decimals : ℕ) (amount exchange_rate : ℚ) : ℤ :=
  ⌊amount * SWAP_SLIPPAGE / exchange_rate * 10 ^ usn_decimals⌋

/-- The swap floor as the spec describes it: 50% of the naive expected
output `amount / exchange_rate`, expressed in the wrapped primary asset's
smallest units, i.e. scaled by `10^NEAR_DECIMALS` (`buy` converts NEAR
amounts with `ONE_NEAR = 10^24` the same way). -/
def claimed_sell_min_out (amount exchange_rate : ℚ) : ℤ :=
  ⌊amount * SWAP_SLIPPAGE / exchange_rate * 10 ^ NEAR_DECIMALS⌋

/-- The panic/`require!` sites of `balance_treasury` that can fire before
the external promise chain is issued, in source order. -/
inductive BalanceError where
  | bad_deposit
  | invalid_range
  | empty_range
  | not_warmed_up
  deriving DecidableEq, Repr

/-- `ONE_YOCTO` of `near_sdk`. -/
def ONE_YOCTO : ℕ := 1

/-- Models the `rand` crate's `gen_range(lo..hi)` contract on a half-open
range: some value `lo + e % (hi - lo)` in `[lo, hi)`, where `e` is the
entropy the seeded generator supplies, and a panic (`none`) when the range
`lo..hi` is empty, i.e. when `lo ≥ hi`. -/
def gen_range (lo hi entropy : ℕ) : Option ℕ :=
  if lo < hi then some (lo + entropy % (hi - lo)) else none

/-- `balance_treasury` up to the issuing of its external promise chain,
with owner/guardian authorization assumed passed (out of scope).
`.ok decision_limit` means every preceding check passed and the chain of
external calls is issued carrying this optional cap; `.error` is the first
`require!`/panic that fires instead.  Source order: attached-deposit
check, then the cap-range check and draw, then the rate-cache check.
(The pool-shape assertion that follows the cache check is also local, and
none of the verified claims involve it.) -/
def balance_treasury (attached_deposit : ℕ) (limits : Option (ℕ × ℕ))
    (entropy : ℕ) (cache_warmed : Bool) : Except BalanceError (Option ℕ) :=
  if attached_deposit ≠ 3 * ONE_YOCTO then .error .bad_deposit
  else
    match limits with
    | some (lo, hi) =>
        if hi < lo then .error .invalid_range
        else
          match gen_range lo hi entropy with
          | none => .error .empty_range
          | some cap =>
              if cache_warmed then .ok (some cap) else .error .not_warmed_up
    | none => if cache_warmed then .ok none else .error .not_warmed_up

/-- The steps `handle_withdraw_after_swap` schedules on the Sell path, in
order: withdraw the wrapped asset from the pool, unwrap it
(`near_withdraw`), withdraw the USN portion from the pool, and the
`finish_withdraw_with_burn` callback. -/
inductive SellStep where
  | withdraw_wrap
  | near_withdraw
  | withdraw_usn
  | finish_burn
  deriving DecidableEq, Repr

/-- The state threaded through the Sell withdraw chain: the local ledger's
total supply, the status of the most recently settled promise (what
`is_promise_success()` reports inside the next callback), and whether the
final burn has executed. -/
structure ChainState where
  supply : ℕ
  last_status : Bool
  burned : Bool
  deriving DecidableEq, Repr

/-- `finish_withdraw_with_burn`: when `is_promise_success()` holds, burn
`amount` from the contract's own ledger account (`internal_withdraw` plus
the `ft_burn` event, decreasing total supply); otherwise leave the ledger
untouched.  Returns the new supply and whether the burn executed. -/
def finish_withdraw_with_burn (is_promise_success : Bool) (supply amount : ℕ) :
    ℕ × Bool :=
  if is_promise_success then (supply - amount, true) else (supply, false)

/-- One scheduling step of the NEAR promise chain.  An external step runs
regardless of the previous step's status (it is `.then`-scheduled with no
`#[callback]` argument) and leaves its own outcome as the chain's last
status; its effects live on the pool/wrap contracts, outside the local
ledger, so only the status is tracked.  The `finish_burn` callback reads
the last status as `is_promise_success()`. -/
def exec_step (outcomes : SellStep → Bool) (amount : ℕ) (st : ChainState) :
    SellStep → ChainState
  | .withdraw_wrap => { st with last_status := outcomes .withdraw_wrap }
  | .near_withdraw => { st with last_status := outcomes .near_withdraw }
  | .withdraw_usn => { st with last_status := outcomes .withdraw_usn }
  | .finish_burn =>
      let r := finish_withdraw_with_burn st.last_status st.supply amount
      { st with supply := r.1, burned := st.burned || r.2 }

/-- The promise chain `handle_withdraw_after_swap` issues, in order. -/
def sell_withdraw_chain : List SellStep :=
  [.withdraw_wrap, .near_withdraw, .withdraw_usn, .finish_burn]

/-- Run the Sell-path withdraw chain against the given external outcomes.
`handle_withdraw_after_swap` is reached only when the preceding swap
succeeded (its `#[callback] wrap_amount` argument otherwise fails to
deserialize and nothing further is scheduled), so the incoming status bit
is `true`.  `usn_amount` is burned by the final step when its gate passes;
`supply` is the ledger's total supply when the chain starts. -/
def run_sell_withdraw (outcomes : SellStep → Bool) (usn_amount supply : ℕ) :
    ChainState :=
  sell_withdraw_chain.foldl (exec_step outcomes usn_amount) ⟨supply, true, false⟩

/-- A constant 8-sample rate series, used as a concrete witness input. -/
def ones8 : List ℚ := [1, 1, 1, 1, 1, 1, 1, 1]

/-- The witness time series `0, …, 7`. -/
def t07 : List ℚ := [0, 1, 2, 3, 4, 5, 6, 7]

/-- A run in which only the wrapped-asset pool withdrawal fails. -/
def wrap_fail_outcomes : SellStep → Bool
  | .withdraw_wrap => false
  | _ => true

/-- A run in which only the USN pool withdrawal fails. -/
def usn_fail_outcomes : SellStep → Bool
  | .withdraw_usn => false
  | _ => true

lemma zipWith_congr_fun {α β γ : Type _} {f g : α → β → γ}
    (h : ∀ a b, f a b = g a b) :
    ∀ (l1 : List α) (l2 : List β), List.zipWith f l1 l2 = List.zipWith g l1 l2
  | [], _ => rfl
  | _ :: _, [] => rfl
  | a :: l1, b :: l2 => by
      simp only [List.zipWith]
      rw [h a b, zipWith_congr_fun h l1 l2]

lemma treasury_rules_sell_le (n_er c n q u : ℚ) (limit : Option ℚ) (amt : ℚ)
    (h : treasury_rules n_er c n q u limit = .Sell amt) :
    amt ≤ T_SELL_STEP ∧ amt ≤ u ∧ ∀ cap, limit = some cap → amt ≤ cap := by
  unfold treasury_rules sell_gate buy_gate at h
  split_ifs at h
  all_goals injection h with hv
  all_goals subst hv
  all_goals refine ⟨le_trans (min_le_left _ _)
      (le_trans (min_le_left _ _) (min_le_right _ _)),
    le_trans (min_le_left _ _) (min_le_right _ _), fun cap hc => ?_⟩
  all_goals subst hc
  all_goals simp only [Option.getD_some]
  all_goals exact min_le_right _ _

lemma treasury_rules_buy_le (n_er c n q u : ℚ) (limit : Option ℚ) (amt : ℚ)
    (h : treasury_rules n_er c n q u limit = .Buy amt) :
    amt ≤ T_BUY_STEP ∧ amt ≤ n_er * n ∧ ∀ cap, limit = some cap → amt ≤ cap := by
  unfold treasury_rules sell_gate buy_gate at h
  split_ifs at h
  all_goals injection h with hv
  all_goals subst hv
  all_goals refine ⟨le_trans (min_le_left _ _)
      (le_trans (min_le_left _ _) (min_le_right _ _)),
    le_trans (min_le_left _ _) (min_le_right _ _), fun cap hc => ?_⟩
  all_goals subst hc
  all_goals simp only [Option.getD_some]
  all_goals exact min_le_right _ _

lemma treasury_rules_sell_min (n_er c n q u : ℚ) (limit : Option ℚ) (amt : ℚ)
    (h : treasury_rules n_er c n q u limit = .Sell amt) : T_SELL_MIN ≤ amt := by
  unfold treasury_rules sell_gate buy_gate at h
  split_ifs at h
  all_goals injection h with hv
  all_goals subst hv
  all_goals assumption

lemma treasury_rules_buy_min (n_er c n q u : ℚ) (limit : Option ℚ) (amt : ℚ)
    (h : treasury_rules n_er c n q u limit = .Buy amt) : T_BUY_MIN ≤ amt := by
  unfold treasury_rules sell_gate buy_gate at h
  split_ifs at h
  all_goals injection h with hv
  all_goals subst hv
  all_goals assumption

lemma make_treasury_decision_shape (rates times : List ℚ) (n q u : ℚ)
    (limit : Option ℚ) (d : TreasuryDecision)
    (h : make_treasury_decision rates times n q u limit = some d) :
    ∃ w, d = decision_from_fit rates times n q u limit w := by
  unfold make_treasury_decision at h
  split_ifs at h
  rcases Option.map_eq_some'.mp h with ⟨w, _, hw⟩
  exact ⟨w, hw.symm⟩

lemma decision_from_fit_eq (rates times : List ℚ) (n q u : ℚ)
    (limit : Option ℚ) (w : List (List ℚ)) :
    decision_from_fit rates times n q u limit w =
      treasury_rules (last_rate rates)
        (c_coef (mat_get w 2 0) (mat_get w 1 0)
          (r_squared rates times (mat_get w 2 0) (mat_get w 1 0) (mat_get w 0 0)))
        n q u limit := rfl

lemma run_sell_withdraw_burned (outcomes : SellStep → Bool) (usn_amount supply : ℕ) :
    (run_sell_withdraw outcomes usn_amount supply).burned =
      outcomes .withdraw_usn := by
  cases h : outcomes SellStep.withdraw_usn <;>
    simp [run_sell_withdraw, sell_withdraw_chain, exec_step,
      finish_withdraw_with_burn, h]

/-- C2: in the Sell execution path, the final local-ledger burn executes
if and only if the step immediately preceding it — the pool withdrawal of
the USN amount — reported success: the gate `is_promise_success()` reads
exactly that step's status, so no other step's outcome is consulted. -/
theorem burn_gate_is_usn_withdraw_success (outcomes : SellStep → Bool)
    (usn_amount supply : ℕ) :
    (run_sell_withdraw outcomes usn_amount supply).burned = true ↔
      outcomes .withdraw_usn = true := by
  rw [run_sell_withdraw_burned]

/-- C2 witness: the equivalence at a concrete run. -/
theorem burn_gate_is_usn_withdraw_success_witness :
    (run_sell_withdraw wrap_fail_outcomes 5 10).burned = true ↔
      wrap_fail_outcomes .withdraw_usn = true :=
  burn_gate_is_usn_withdraw_success wrap_fail_outcomes 5 10

/-- C1 as stated is false on the code: in the run where the mid-chain
pool withdrawal of the wrapped asset fails but the later USN withdrawal
succeeds, the final burn still executes and the ledger's total supply
changes (here from 10 to 5). -/
theorem burn_runs_despite_wrap_withdraw_failure :
    wrap_fail_outcomes .withdraw_wrap = false ∧
    (run_sell_withdraw wrap_fail_outcomes 5 10).burned = true ∧
    (run_sell_withdraw wrap_fail_outcomes 5 10).supply = 5 :=
  ⟨rfl, rfl, rfl⟩

/-- C1 (amended): if the pool withdrawal of the USN amount — the one step
whose status the burn gate consults — fails, the burn does not execute and
the ledger's total supply is unchanged by the attempt.  (A failure of the
wrapped-asset withdrawal or of the unwrap alone does not prevent the
burn.) -/
theorem usn_withdraw_failure_skips_burn (outcomes : SellStep → Bool)
    (usn_amount supply : ℕ) (h : outcomes .withdraw_usn = false) :
    (run_sell_withdraw outcomes usn_amount supply).burned = false ∧
    (run_sell_withdraw outcomes usn_amount supply).supply = supply := by
  constructor
  · rw [run_sell_withdraw_burned, h]
  · simp [run_sell_withdraw, sell_withdraw_chain, exec_step,
      finish_withdraw_with_burn, h]

/-- Witness for the amended C1, at a run where only the USN withdrawal
fails. -/
theorem usn_withdraw_failure_skips_burn_witness :
    (run_sell_withdraw usn_fail_outcomes 5 10).burned = false ∧
    (run_sell_withdraw usn_fail_outcomes 5 10).supply = 10 :=
  usn_withdraw_failure_skips_burn usn_fail_outcomes 5 10 rfl

/-- C9: with any attached deposit other than exactly 3 yoctoNEAR,
`balance_treasury` panics on its deposit `require!` — before the cap-range
check, before the cache read and before any external call, whatever state
those are in. -/
theorem wrong_deposit_rejected_first (deposit : ℕ) (limits : Option (ℕ × ℕ))
    (entropy : ℕ) (cache_warmed : Bool) (h : deposit ≠ 3 * ONE_YOCTO) :
    balance_treasury deposit limits entropy cache_warmed = .error .bad_deposit := by
  simp [balance_treasury, h]

/-- C9 witness: a 2-yocto deposit is rejected as a bad deposit even though
the supplied range is also invalid and the cache is cold. -/
theorem wrong_deposit_rejected_first_witness :
    balance_treasury 2 (some (7, 4)) 0 false = .error .bad_deposit :=
  wrong_deposit_rejected_first 2 (some (7, 4)) 0 false (by decide)

/-- C8 as stated is false on the code: the range `[5, 5]` satisfies
`min ≤ max`, so the range check passes, yet the call is still rejected
before any external call and no cap is drawn — the draw from the empty
half-open range `5..5` panics. -/
theorem equal_range_rejected_without_draw :
    (5 : ℕ) ≤ 5 ∧
    balance_treasury (3 * ONE_YOCTO) (some (5, 5)) 0 true = .error .empty_range :=
  ⟨le_refl 5, rfl⟩

/-- C8 (amended): the range check itself rejects exactly when `min > max`;
with `min < max` the check passes and a cap is drawn from the range before
any external call; with `min = max` the check passes but the draw from the
empty half-open range panics, still before any external call. -/
theorem range_check_and_draw (lo hi entropy : ℕ) (cache_warmed : Bool) :
    (hi < lo →
      balance_treasury (3 * ONE_YOCTO) (some (lo, hi)) entropy cache_warmed =
        .error .invalid_range) ∧
    (lo = hi →
      balance_treasury (3 * ONE_YOCTO) (some (lo, hi)) entropy cache_warmed =
        .error .empty_range) ∧
    (lo < hi → ∃ cap, lo ≤ cap ∧ cap < hi ∧
      balance_treasury (3 * ONE_YOCTO) (some (lo, hi)) entropy true =
        .ok (some cap)) := by
  refine ⟨fun h => by simp [balance_treasury, h], fun h => ?_, fun h => ?_⟩
  · subst h
    simp [balance_treasury, gen_range]
  · refine ⟨lo + entropy % (hi - lo), Nat.le_add_right _ _, ?_, ?_⟩
    · have hpos : 0 < hi - lo := Nat.sub_pos_of_lt h
      have := Nat.mod_lt entropy hpos
      omega
    · simp [balance_treasury, gen_range, h, Nat.not_lt.mpr (le_of_lt h)]

/-- C10: whenever a supplied cap range lets the call proceed, the drawn
cap satisfies `min ≤ cap < max` — the value `max` itself is never drawn —
and for `min = max` the draw panics even though the checked precondition
`min ≤ max` holds. -/
theorem cap_drawn_half_open (lo hi entropy : ℕ) :
    (∀ cap, balance_treasury (3 * ONE_YOCTO) (some (lo, hi)) entropy true =
        .ok (some cap) → lo ≤ cap ∧ cap < hi) ∧
    (lo = hi → lo ≤ hi ∧
      balance_treasury (3 * ONE_YOCTO) (some (lo, hi)) entropy true =
        .error .empty_range) := by
  constructor
  · intro cap hcap
    by_cases h1 : hi < lo
    · simp [balance_treasury, h1] at hcap
    · by_cases h2 : lo < hi
      · have hval : cap = lo + entropy % (hi - lo) := by
          simp [balance_treasury, gen_range, h1, h2] at hcap
          exact hcap.symm
        have hpos : 0 < hi - lo := Nat.sub_pos_of_lt h2
        have := Nat.mod_lt entropy hpos
        omega
      · simp [balance_treasury, gen_range, h1, h2] at hcap
  · intro h
    subst h
    exact ⟨le_refl lo, by simp [balance_treasury, gen_range]⟩

/-- C3: whatever the fit and the heuristics produce, a `Sell` amount never
exceeds `T_SELL_STEP`, the USDT reserve, or a supplied cap, and a `Buy`
amount never exceeds `T_BUY_STEP`, `current_rate · native_reserve`, or a
supplied cap: each branch clamps its candidate with exactly these
minima. -/
theorem make_treasury_decision_respects_caps (rates times : List ℚ)
    (near usn usdt : ℚ) (limit : Option ℚ) (d : TreasuryDecision)
    (hd : make_treasury_decision rates times near usn usdt limit = some d) :
    (∀ amt, d = .Sell amt →
      amt ≤ T_SELL_STEP ∧ amt ≤ usdt ∧ ∀ cap, limit = some cap → amt ≤ cap) ∧
    (∀ amt, d = .Buy amt →
      amt ≤ T_BUY_STEP ∧ amt ≤ last_rate rates * near ∧
        ∀ cap, limit = some cap → amt ≤ cap) := by
  obtain ⟨w, rfl⟩ := make_treasury_decision_shape _ _ _ _ _ _ _ hd
  rw [decision_from_fit_eq]
  exact ⟨fun amt h => treasury_rules_sell_le _ _ _ _ _ _ _ h,
    fun amt h => treasury_rules_buy_le _ _ _ _ _ _ _ h⟩

/-- C4: a decision is never `Sell` below `T_SELL_MIN` nor `Buy` below
`T_BUY_MIN`, and whenever a branch's clamped candidate falls below its
minimum the branch's threshold gate yields `DoNothing`. -/
theorem make_treasury_decision_min_threshold (rates times : List ℚ)
    (near usn usdt : ℚ) (limit : Option ℚ) (d : TreasuryDecision)
    (hd : make_treasury_decision rates times near usn usdt limit = some d) :
    (∀ amt, d = .Sell amt → T_SELL_MIN ≤ amt) ∧
    (∀ amt, d = .Buy amt → T_BUY_MIN ≤ amt) ∧
    (∀ r, r < T_SELL_MIN → sell_gate r = .DoNothing) ∧
    (∀ r, r < T_BUY_MIN → buy_gate r = .DoNothing) := by
  obtain ⟨w, rfl⟩ := make_treasury_decision_shape _ _ _ _ _ _ _ hd
  rw [decision_from_fit_eq]
  refine ⟨fun amt h => treasury_rules_sell_min _ _ _ _ _ _ _ h,
    fun amt h => treasury_rules_buy_min _ _ _ _ _ _ _ h,
    fun r hr => ?_, fun r hr => ?_⟩
  · simp [sell_gate, not_le.mpr hr]
  · simp [buy_gate, not_le.mpr hr]

lemma range_six : List.range 6 = [0, 1, 2, 3, 4, 5] := rfl

lemma range_one : List.range 1 = [0] := rfl

lemma range_three : List.range 3 = [0, 1, 2] := rfl

lemma smooth3_t07 : smooth3 t07 = [1, 2, 3, 4, 5, 6] := by
  norm_num [smooth3, t07, range_six]

lemma smooth3_ones8 : smooth3 ones8 = [1, 1, 1, 1, 1, 1] := by
  norm_num [smooth3, ones8, range_six]

set_option maxHeartbeats 2000000 in
lemma fit_w_ones : fit_w [1, 2, 3, 4, 5, 6] [1, 1, 1, 1, 1, 1] =
    some [[1], [0], [0]] := by
  norm_num [fit_w, mat_mul, mat_transpose, mat_get, dot, inverse3, det3,
    range_one, range_three, range_six]

set_option maxHeartbeats 1000000 in
lemma decision_ones8 :
    make_treasury_decision ones8 t07 0 100000 50000 none =
      some (.Sell 25000) := by
  rw [make_treasury_decision, if_pos ⟨rfl, rfl⟩, smooth3_t07, smooth3_ones8,
    fit_w_ones, Option.map_some', decision_from_fit_eq]
  norm_num [mat_get, r_squared, s_res, s_tot, er_mean, c_coef, fsignum,
    T_0, M, last_rate, ones8, t07, treasury_rules, sell_gate, buy_gate,
    N_DN, T_SELL_STEP, T_SELL_MIN]

/-- C3 witness: on a concrete series the engine answers `Sell 25000`, and
the theorem then bounds that amount by the step cap and the reserve. -/
theorem make_treasury_decision_respects_caps_witness :
    (25000 : ℚ) ≤ T_SELL_STEP ∧ (25000 : ℚ) ≤ 50000 := by
  have h := (make_treasury_decision_respects_caps ones8 t07 0 100000 50000
    none (.Sell 25000) decision_ones8).1 25000 rfl
  exact ⟨h.1, h.2.1⟩

/-- C4 witness: the concrete `Sell 25000` answer is above `T_SELL_MIN`. -/
theorem make_treasury_decision_min_threshold_witness :
    T_SELL_MIN ≤ (25000 : ℚ) :=
  (make_treasury_decision_min_threshold ones8 t07 0 100000 50000 none
    (.Sell 25000) decision_ones8).1 25000 rfl

/-- C5: the goodness of fit the engine computes is exactly the spec's
`R² = 1 − SSres/SStot` over the original unsmoothed 8-point series: the
total sum of squares uses the 8 raw rates and their mean, and the residual
sum evaluates the fitted quadratic at the raw times against the raw
rates. -/
theorem r_squared_unsmoothed_series (rates times : List ℚ) (a b c : ℚ)
    (h8 : rates.length = 8) :
    r_squared rates times a b c = spec_r_squared rates times a b c := by
  have hlen : (rates.length : ℚ) = 8 := by rw [h8]; norm_num
  unfold r_squared spec_r_squared
  have h1 : s_res rates times a b c = spec_ss_res rates times a b c := by
    unfold s_res spec_ss_res
    exact congrArg List.sum
      (zipWith_congr_fun (fun v t => by ring) rates times)
  have h2 : s_tot rates = spec_ss_tot rates := by
    unfold s_tot spec_ss_tot er_mean
    rw [hlen]
  rw [h1, h2]

/-- C5 witness: the equality at a concrete 8-point series and fit. -/
theorem r_squared_unsmoothed_series_witness :
    r_squared ones8 t07 0 0 0 = spec_r_squared ones8 t07 0 0 0 :=
  r_squared_unsmoothed_series ones8 t07 0 0 0 rfl

/-- The unit analysis behind C7: the pre-truncation swap floor the source
computes, `amount · SWAP_SLIPPAGE / rate · 10^USN_DECIMALS`, agrees with
the claimed floor in wrapped-NEAR smallest units, `amount · SWAP_SLIPPAGE
/ rate · 10^NEAR_DECIMALS`, exactly when `USN_DECIMALS = 24`. -/
lemma sell_min_out_unit_analysis (d : ℕ) (amount rate : ℚ)
    (ha : 0 < amount) (hr : 0 < rate) :
    amount * SWAP_SLIPPAGE / rate * 10 ^ d =
      amount * SWAP_SLIPPAGE / rate * 10 ^ NEAR_DECIMALS ↔ d = NEAR_DECIMALS := by
  have hne : amount * SWAP_SLIPPAGE / rate ≠ 0 := by
    have : (0 : ℚ) < SWAP_SLIPPAGE := by norm_num [SWAP_SLIPPAGE]
    positivity
  constructor
  · intro h
    have hp : (10 : ℚ) ^ d = 10 ^ NEAR_DECIMALS := mul_left_cancel₀ hne h
    have hp' : ((10 ^ d : ℕ) : ℚ) = ((10 ^ NEAR_DECIMALS : ℕ) : ℚ) := by
      push_cast
      exact hp
    exact Nat.pow_right_injective (by norm_num) (Nat.cast_injective hp')
  · rintro rfl
    rfl

end Usn
